import Mathlib

/-!
# Verification of the Alien Invasion Simulator (`ais`)

A shallow embedding of the simulator half of the `ais` Go program: the
line-oriented map-file loader (two passes: tokenizing parse and road
resolution), the alien spawn phase, the bounded random-walk movement
phase, and the result serializer.  Go strings are modelled as `List Char`,
Go's `int` as `Int` (with `-1` as the "none" sentinel exactly as in the
source), and the shared pseudo-random source as an arbitrary oracle
`g : Nat → Nat` indexed by a draw counter (`rand.Intn(n)` becomes
`g ctr % n`).
-/

set_option maxRecDepth 4000

/-- Go strings, modelled as lists of characters. -/
abbrev Str := List Char

/-- Go's `strings.Split(s, sep)` for a one-character separator: splits around
every instance of `sep`, keeping empty fields; on the empty string it returns
a single empty field (never the empty list). -/
def splitGo (sep : Char) : Str → List Str
  | [] => [[]]
  | c :: rest =>
    match splitGo sep rest with
    | [] => [[]]
    | t :: ts => if c = sep then [] :: t :: ts else (c :: t) :: ts

/-- Direction index `EAST` (Go: `const EAST int = 0`). -/
def EAST : Fin 4 := 0
/-- Direction index `SOUTH` (Go: `const SOUTH int = 1`). -/
def SOUTH : Fin 4 := 1
/-- Direction index `WEST` (Go: `const WEST int = 2`). -/
def WEST : Fin 4 := 2
/-- Direction index `NORTH` (Go: `const NORTH int = 3`). -/
def NORTH : Fin 4 := 3

/-- The cardinal opposite of a direction (Go: `od := d; od += 2; od = od % 4`). -/
def oppositeDir (d : Fin 4) : Fin 4 := d + 2

/-- The direction keyword switch of the parser (Go: `switch inners[0]`). -/
def dirOfName (s : Str) : Option (Fin 4) :=
  if s = "east".toList then some EAST
  else if s = "south".toList then some SOUTH
  else if s = "west".toList then some WEST
  else if s = "north".toList then some NORTH
  else none

/-- One city record (Go: `type SNode struct`).  `roads` holds indices into the
city table with `-1` for "no road"; `sroads` holds the neighbor names from the
first parser pass with `""` for "none". -/
structure SNode where
  index : Nat
  cityName : Str
  roads : Fin 4 → Int
  sroads : Fin 4 → Str
  dead : Bool
  alienid : Int

instance : Inhabited SNode :=
  ⟨{ index := 0, cityName := [], roads := fun _ => -1, sroads := fun _ => [],
     dead := false, alienid := -1 }⟩

/-- The loader's fatal error kinds (each corresponds to one of the
`ERROR: ...; return` sites in `simulate`). -/
inductive LoadError
  | DuplicateCity
  | SyntaxError
  | UnknownDirection
  | SelfReference
  | UnknownCity
  | InconsistentRoad
deriving DecidableEq, Repr

/-- State of the first parser pass: the city table so far plus the
name-to-index map (Go: `nodes SNodeArray` and `nodeMap SNodeMap`).  The map is
an association list; names are unique, so first-match lookup coincides with
Go's map lookup. -/
structure ParseSt where
  nodes : List SNode
  nodeMap : List (Str × Nat)

/-- Lookup in the name-to-index association list (Go: `nodeMap[name]`). -/
def lookupName (m : List (Str × Nat)) (s : Str) : Option Nat :=
  match m with
  | [] => none
  | (k, v) :: r => if k = s then some v else lookupName r s

/-- Parse the `DIRECTION=CITY` items of one line into the `sroads` slots
(Go: the `for i := 1; i < len(items)` loop, including the exactly-one-`=`
check, the direction keyword switch, and the self-reference check). -/
def parseItems (cityName : Str) : List Str → (Fin 4 → Str) → Except LoadError (Fin 4 → Str)
  | [], sroads => .ok sroads
  | item :: rest, sroads =>
    match splitGo '=' item with
    | [dirStr, neighborName] =>
      match dirOfName dirStr with
      | none => .error .UnknownDirection
      | some dir =>
        if neighborName = cityName then .error .SelfReference
        else parseItems cityName rest (Function.update sroads dir neighborName)
    | _ => .error .SyntaxError

/-- Process one input line of the map file (Go: the body of the scanner loop).
Note that `splitGo` never returns the empty list, so — exactly as with Go's
always-true `len(items) >= 1` — every line, including a blank one, defines a
city named by its first field. -/
def parseLine (st : ParseSt) (line : Str) : Except LoadError ParseSt :=
  match splitGo ' ' line with
  | [] => .ok st
  | cityName :: items =>
    match lookupName st.nodeMap cityName with
    | some _ => .error .DuplicateCity
    | none =>
      match parseItems cityName items (fun _ => []) with
      | .error e => .error e
      | .ok sroads =>
        let newNode : SNode :=
          { index := st.nodes.length, cityName := cityName, roads := fun _ => -1,
            sroads := sroads, dead := false, alienid := -1 }
        .ok { nodes := st.nodes ++ [newNode],
              nodeMap := (cityName, newNode.index) :: st.nodeMap }

/-- The first parser pass over all lines of the file (Go: the scanner loop). -/
def parseLines (st : ParseSt) : List Str → Except LoadError ParseSt
  | [] => .ok st
  | l :: ls =>
    match parseLine st l with
    | .error e => .error e
    | .ok st' => parseLines st' ls

/-- One step of the resolution pass for city `i` and direction `d`
(Go: the body of the nested `for i` / `for d` loops): resolve the declared
neighbor name to an index, then check/auto-fill the neighbor's opposite road.
The comparison `neighNode.sroads[od] == node.sroads[d]` is reproduced exactly
as written in the source. -/
def resolveStep (mp : List (Str × Nat)) (nodes : List SNode) (i : Nat) (d : Fin 4) :
    Except LoadError (List SNode) :=
  let node := nodes.getD i default
  let neighborName := node.sroads d
  if neighborName = [] then .ok nodes
  else
    match lookupName mp neighborName with
    | none => .error .UnknownCity
    | some idx =>
      let nodes1 := nodes.set i { node with roads := Function.update node.roads d ((idx : Int)) }
      let od := oppositeDir d
      let neighNode := nodes1.getD idx default
      if neighNode.sroads od = [] ∨ neighNode.sroads od = node.sroads d then
        .ok (nodes1.set idx
          { neighNode with roads := Function.update neighNode.roads od ((node.index : Int)) })
      else .error .InconsistentRoad

/-- Resolve all four directions of city `i` in order (Go: the inner `for d` loop). -/
def resolveDirs (mp : List (Str × Nat)) (nodes : List SNode) (i : Nat) :
    List (Fin 4) → Except LoadError (List SNode)
  | [] => .ok nodes
  | d :: ds =>
    match resolveStep mp nodes i d with
    | .error e => .error e
    | .ok ns => resolveDirs mp ns i ds

/-- Resolve every city in index order (Go: the outer `for i` loop of pass two). -/
def resolveNodes (mp : List (Str × Nat)) (nodes : List SNode) :
    List Nat → Except LoadError (List SNode)
  | [] => .ok nodes
  | i :: is =>
    match resolveDirs mp nodes i [0, 1, 2, 3] with
    | .error e => .error e
    | .ok ns => resolveNodes mp ns is

/-- The full map-file loader: parse pass followed by the resolution pass. -/
def load (lines : List Str) : Except LoadError (List SNode × List (Str × Nat)) :=
  match parseLines ⟨[], []⟩ lines with
  | .error e => .error e
  | .ok st =>
    match resolveNodes st.nodeMap st.nodes (List.range st.nodes.length) with
    | .error e => .error e
    | .ok ns => .ok (ns, st.nodeMap)

/-- The error produced by loading a file, if any. -/
def loadErr (lines : List Str) : Option LoadError :=
  match load lines with
  | .error e => some e
  | .ok _ => none

/-- Whether loading a file succeeds. -/
def loadOk (lines : List Str) : Bool :=
  match load lines with
  | .error _ => false
  | .ok _ => true

/-- The resolved city table of a file that loads successfully (junk on failure). -/
def loadNodes (lines : List Str) : List SNode :=
  match load lines with
  | .error _ => []
  | .ok (ns, _) => ns

/-- The name-to-index map of a file that loads successfully (junk on failure). -/
def loadMap (lines : List Str) : List (Str × Nat) :=
  match load lines with
  | .error _ => []
  | .ok (_, mp) => mp

/-- State of the simulation proper (Go data owned by `simulate` after loading):
the mutable city table, the alien roster (Go `AlienArray`: index is the alien
id, value is its city index or `-1`), the live-alien counter, and the position
reached in the random oracle's stream. -/
structure SimSt where
  nodes : List SNode
  aliens : List Int
  liveAlienCounter : Int
  rndCtr : Nat

/-- Mark a city destroyed (Go: `nodes[x].dead = true`). -/
def setDead (nd : SNode) : SNode := { nd with dead := true }

/-- Record the occupant alien id of a city (Go: `nodes[x].alienid = v`). -/
def setAlienid (nd : SNode) (v : Int) : SNode := { nd with alienid := v }

/-- The spawn-phase probe for a non-destroyed city (Go: the `for cs` loop):
check at most `fuel = len(nodes)` indices starting at `tryIdx`, advancing with
wraparound, and return the first non-destroyed one. -/
def probeSpawn (nodes : List SNode) : Nat → Nat → Option Nat
  | _, 0 => none
  | tryIdx, Nat.succ fuel =>
    if (nodes.getD tryIdx default).dead = false then some tryIdx
    else probeSpawn nodes (if tryIdx + 1 ≥ nodes.length then 0 else tryIdx + 1) fuel

/-- Result of one spawn step or of the whole spawn loop. -/
inductive SpawnRes
  /-- Go runtime panic: `rand.Intn(0)` when the city table is empty. -/
  | panic
  /-- "no cities left to place Alien #i": `simulate` returns at once, the
  remaining aliens are never placed and no result file is written.  Carries
  the alien roster as it stood at the early return. -/
  | exhausted (aliens : List Int)
  /-- The step placed (or destroyed) its alien; the simulation continues. -/
  | next (st : SimSt)

/-- Spawn one alien (Go: the body of the `for i := 0; i < numaliens` loop):
draw a starting index, probe for a non-destroyed city, halt the whole phase if
none exists, otherwise place the alien and resolve a spawn collision by
destroying the city and both aliens. -/
def spawnStep (g : Nat → Nat) (st : SimSt) (i : Nat) : SpawnRes :=
  if st.nodes.length = 0 then .panic
  else
    let tryCityIndex := g st.rndCtr % st.nodes.length
    let ctr := st.rndCtr + 1
    match probeSpawn st.nodes tryCityIndex st.nodes.length with
    | none => .exhausted st.aliens
    | some chosen =>
      let aliens1 := st.aliens.set i ((chosen : Int))
      let live1 := st.liveAlienCounter + 1
      let existing := (st.nodes.getD chosen default).alienid
      if existing = -1 then
        let nodes1 := st.nodes.set chosen (setAlienid (st.nodes.getD chosen default) ((i : Int)))
        .next { nodes := nodes1, aliens := aliens1, liveAlienCounter := live1, rndCtr := ctr }
      else
        let nodes1 := st.nodes.set chosen (setDead (st.nodes.getD chosen default))
        let aliens2 := aliens1.set i (-1)
        let aliens3 := aliens2.set existing.toNat (-1)
        .next { nodes := nodes1, aliens := aliens3, liveAlienCounter := live1 - 2, rndCtr := ctr }

/-- The whole spawn phase over the given alien ids (Go: the `for i` loop),
stopping at the first panic or world-exhausted early return. -/
def spawnLoop (g : Nat → Nat) (st : SimSt) : List Nat → SpawnRes
  | [] => .next st
  | i :: is =>
    match spawnStep g st i with
    | .panic => .panic
    | .exhausted a => .exhausted a
    | .next st' => spawnLoop g st' is

/-- The movement-phase probe for a valid exit (Go: the `for dr` loop): try at
most four directions cyclically from `tryDirection`, returning the first whose
road exists (`≠ -1`) and leads to a non-destroyed city, together with that
destination index. -/
def probeDir (nodes : List SNode) (anode : SNode) : Fin 4 → Nat → Option (Fin 4 × Int)
  | _, 0 => none
  | tryDirection, Nat.succ fuel =>
    let destCityIndex := anode.roads tryDirection
    if destCityIndex ≠ -1 ∧ (nodes.getD destCityIndex.toNat default).dead = false then
      some (tryDirection, destCityIndex)
    else probeDir nodes anode (tryDirection + 1) fuel

/-- Result of moving one alien (or of a round, or of the whole move loop). -/
inductive MoveRes
  /-- The internal-consistency re-check fired ("Simulator has a bug"):
  `simulate` returns and no result file is written. -/
  | bug
  /-- Movement continues with this state. -/
  | next (st : SimSt)

/-- Move one alien (Go: the body of the `for i := 0; i < numaliens` loop inside
a round): skip dead aliens, draw a starting direction, probe for a valid exit,
stay if trapped, otherwise move — clearing the old city's occupancy first —
and resolve a collision at the destination by destroying the city and both
aliens.  The destroyed city's `alienid` is left untouched, exactly as in the
source. -/
def moveAlien (g : Nat → Nat) (st : SimSt) (i : Nat) : MoveRes :=
  if st.aliens.getD i (-1) = -1 then .next st
  else
    let anode := st.nodes.getD (st.aliens.getD i (-1)).toNat default
    let tryDirection : Fin 4 := ⟨g st.rndCtr % 4, Nat.mod_lt _ (by omega)⟩
    let ctr := st.rndCtr + 1
    match probeDir st.nodes anode tryDirection 4 with
    | none => .next { st with rndCtr := ctr }
    | some (_, destCityIndex) =>
      if destCityIndex = -1 ∨ (st.nodes.getD destCityIndex.toNat default).dead = true then .bug
      else
        let src := (st.aliens.getD i (-1)).toNat
        let nodes1 := st.nodes.set src (setAlienid (st.nodes.getD src default) (-1))
        let aliens1 := st.aliens.set i destCityIndex
        let dest := destCityIndex.toNat
        let existing := (nodes1.getD dest default).alienid
        if existing = -1 then
          let nodes2 := nodes1.set dest (setAlienid (nodes1.getD dest default) ((i : Int)))
          .next { nodes := nodes2, aliens := aliens1, liveAlienCounter := st.liveAlienCounter,
                  rndCtr := ctr }
        else
          let nodes2 := nodes1.set dest (setDead (nodes1.getD dest default))
          let aliens2 := aliens1.set i (-1)
          let aliens3 := aliens2.set existing.toNat (-1)
          .next { nodes := nodes2, aliens := aliens3,
                  liveAlienCounter := st.liveAlienCounter - 2, rndCtr := ctr }

/-- Move every alien of one round in ascending id order. -/
def moveAliens (g : Nat → Nat) (st : SimSt) : List Nat → MoveRes
  | [] => .next st
  | i :: is =>
    match moveAlien g st i with
    | .bug => .bug
    | .next st' => moveAliens g st' is

/-- One movement round over all alien ids `0 .. numaliens-1`. -/
def runRound (g : Nat → Nat) (numaliens : Nat) (st : SimSt) : MoveRes :=
  moveAliens g st (List.range numaliens)

/-- The movement engine's round loop (Go: `for r := 0; r < 10000; r++`), with
the early break once `liveAlienCounter <= 0`.  Returns the final state and the
number of rounds whose alien loop actually ran, or `none` on the internal
abort. -/
def moveLoop (g : Nat → Nat) (numaliens : Nat) : Nat → SimSt → Option (SimSt × Nat)
  | 0, st => some (st, 0)
  | Nat.succ fuel, st =>
    if st.liveAlienCounter ≤ 0 then some (st, 0)
    else
      match runRound g numaliens st with
      | .bug => none
      | .next st' =>
        match moveLoop g numaliens fuel st' with
        | none => none
        | some (st'', k) => some (st'', k + 1)

/-- The movement phase: at most 10,000 rounds. -/
def movePhase (g : Nat → Nat) (numaliens : Nat) (st : SimSt) : Option (SimSt × Nat) :=
  moveLoop g numaliens 10000 st

/-- The serializer's direction keyword (Go: `switch d` in the output loop). -/
def dirName (d : Fin 4) : Str :=
  if d = EAST then "east".toList
  else if d = SOUTH then "south".toList
  else if d = WEST then "west".toList
  else "north".toList

/-- Append the ` DIR=NAME` tokens of the given directions to `line` when the
road exists and its target is non-destroyed (Go: the serializer's `for d`
loop with its two `continue`s). -/
def serTokens (nodes : List SNode) (nd : SNode) (line : Str) : List (Fin 4) → Str
  | [] => line
  | d :: ds =>
    if nd.roads d = -1 then serTokens nodes nd line ds
    else if (nodes.getD (nd.roads d).toNat default).dead = true then serTokens nodes nd line ds
    else serTokens nodes nd
      (line ++ ' ' :: (dirName d ++ '=' :: (nodes.getD (nd.roads d).toNat default).cityName)) ds

/-- One output line: the city name followed by its surviving road tokens. -/
def serLine (nodes : List SNode) (nd : SNode) : Str :=
  serTokens nodes nd nd.cityName [0, 1, 2, 3]

/-- The serializer's city loop: emit a line for each city in index order,
skipping destroyed ones. -/
def serializeRun (nodes : List SNode) : List SNode → List Str
  | [] => []
  | nd :: rest =>
    if nd.dead = true then serializeRun nodes rest
    else serLine nodes nd :: serializeRun nodes rest

/-- The result serializer: the lines of `<mapfile>.result`. -/
def serialize (nodes : List SNode) : List Str :=
  serializeRun nodes nodes

/-- The initial simulation state after loading (Go: `aliens` initialized to
all `-1`, `liveAlienCounter = 0`). -/
def initSt (nodes : List SNode) (numaliens : Nat) : SimSt :=
  { nodes := nodes, aliens := List.replicate numaliens (-1), liveAlienCounter := 0, rndCtr := 0 }

/-- The observable outcome of one `simulate` invocation. -/
inductive SimFinal
  /-- A fatal loader error: diagnostic printed, no result file written. -/
  | loadError (e : LoadError)
  /-- Go runtime panic from `rand.Intn(0)`: empty city table with an alien to
  spawn.  No result file is written. -/
  | panic
  /-- Phase-1 world-exhausted early termination: no result file is written. -/
  | exhausted
  /-- The movement phase's internal-consistency abort: no result file. -/
  | internalBug
  /-- Normal completion; carries the lines of the result file. -/
  | output (lines : List Str)

/-- The whole of `simulate`, from map-file lines to the observable outcome,
driven by the random oracle `g`. -/
def fullSim (lines : List Str) (numaliens : Nat) (g : Nat → Nat) : SimFinal :=
  match load lines with
  | .error e => .loadError e
  | .ok (nodes, _) =>
    match spawnLoop g (initSt nodes numaliens) (List.range numaliens) with
    | .panic => .panic
    | .exhausted _ => .exhausted
    | .next st1 =>
      match movePhase g numaliens st1 with
      | none => .internalBug
      | some (st2, _) => .output (serialize st2.nodes)

/-- The state reached by the spawn loop, if it completed (junk otherwise). -/
def spawnResSt : SpawnRes → Option SimSt
  | .next st => some st
  | _ => none

/-- Whether direction `d` of city `nd` carries a road to an existing,
non-destroyed city (the serializer's emission condition, spec side). -/
def goodDir (nodes : List SNode) (nd : SNode) (d : Fin 4) : Bool :=
  if nd.roads d = -1 then false
  else if (nodes.getD (nd.roads d).toNat default).dead = true then false
  else true

/-- One ` DIR=NAME` output token (spec side). -/
def specToken (nodes : List SNode) (nd : SNode) (d : Fin 4) : Str :=
  ' ' :: (dirName d ++ '=' :: (nodes.getD (nd.roads d).toNat default).cityName)

/-- One output line as the spec describes it: the city name followed by a
token for each of the four directions whose target exists and is
non-destroyed, in direction order. -/
def serLineSpec (nodes : List SNode) (nd : SNode) : Str :=
  nd.cityName ++
    (([0, 1, 2, 3] : List (Fin 4)).filter (goodDir nodes nd)).foldr
      (fun d acc => specToken nodes nd d ++ acc) []

/-- The serialized output as the spec describes it: exactly one line per
non-destroyed city, in city-index (insertion) order. -/
def serializeSpec (nodes : List SNode) : List Str :=
  (nodes.filter (fun nd => !nd.dead)).map (serLineSpec nodes)

/-- Every road slot of every city is either `-1` or a valid index into the
city table. -/
def RoadsValid (nodes : List SNode) : Prop :=
  ∀ k (d : Fin 4), k < nodes.length →
    (nodes.getD k default).roads d = -1 ∨
      ∃ m : Nat, (nodes.getD k default).roads d = (m : Int) ∧ m < nodes.length

/-- The occupancy invariant tying the alien roster to the city table: every
roster entry is either `-1` (dead or unplaced) or a valid city index, and if
that city is non-destroyed then its `alienid` slot records exactly this
alien. -/
def AlienInv (st : SimSt) : Prop :=
  ∀ k : Nat, st.aliens.getD k (-1) = -1 ∨
    ∃ c : Nat, st.aliens.getD k (-1) = (c : Int) ∧
      c < st.nodes.length ∧
      ((st.nodes.getD c default).dead = false →
        (st.nodes.getD c default).alienid = (k : Int))

/-- The simulation-state invariant maintained by every spawn and move step. -/
def SimInv (st : SimSt) : Prop :=
  RoadsValid st.nodes ∧ AlienInv st

/-- No duplicate occupancy: two distinct alien ids recorded at the same city
index force that city to be destroyed. -/
def NoDupOccupancy (st : SimSt) : Prop :=
  ∀ i j c : Nat, i ≠ j → st.aliens.getD i (-1) = (c : Int) →
    st.aliens.getD j (-1) = (c : Int) → (st.nodes.getD c default).dead = true

/-- The observable simulation states: the initial state built from a
successfully loaded map file, and everything reachable from it by resolved
spawn steps and single-alien moves, under arbitrary random draws. -/
inductive Reach (numaliens : Nat) : SimSt → Prop
  | init (lines : List Str) (nodes : List SNode) (mp : List (Str × Nat))
      (h : load lines = .ok (nodes, mp)) :
      Reach numaliens (initSt nodes numaliens)
  | spawn (g : Nat → Nat) (st st' : SimSt) (i : Nat)
      (h : Reach numaliens st) (hs : spawnStep g st i = .next st') :
      Reach numaliens st'
  | move (g : Nat → Nat) (st st' : SimSt) (i : Nat)
      (h : Reach numaliens st) (hm : moveAlien g st i = .next st') :
      Reach numaliens st'

/-- Well-formedness of the first parser pass's state: all roads are still the
dummy `-1`, every stored index is in range, and every map entry points into
the table. -/
def ParseWF (st : ParseSt) : Prop :=
  (∀ k, k < st.nodes.length →
    (st.nodes.getD k default).roads = (fun _ => (-1 : Int)) ∧
      (st.nodes.getD k default).index < st.nodes.length) ∧
  (∀ p ∈ st.nodeMap, p.2 < st.nodes.length)

/-- Well-formedness carried through the resolution pass. -/
def ResolveWF (mp : List (Str × Nat)) (nodes : List SNode) : Prop :=
  (∀ p ∈ mp, p.2 < nodes.length) ∧
  (∀ k, k < nodes.length → (nodes.getD k default).index < nodes.length) ∧
  RoadsValid nodes

/-! ## Shallow update helpers -/

@[simp] theorem setDead_roads (nd : SNode) : (setDead nd).roads = nd.roads := rfl
@[simp] theorem setDead_dead (nd : SNode) : (setDead nd).dead = true := rfl
@[simp] theorem setDead_alienid (nd : SNode) : (setDead nd).alienid = nd.alienid := rfl
@[simp] theorem setDead_index (nd : SNode) : (setDead nd).index = nd.index := rfl
@[simp] theorem setAlienid_roads (nd : SNode) (v : Int) : (setAlienid nd v).roads = nd.roads := rfl
@[simp] theorem setAlienid_dead (nd : SNode) (v : Int) : (setAlienid nd v).dead = nd.dead := rfl
@[simp] theorem setAlienid_alienid (nd : SNode) (v : Int) : (setAlienid nd v).alienid = v := rfl
@[simp] theorem setAlienid_index (nd : SNode) (v : Int) : (setAlienid nd v).index = nd.index := rfl

/-! ## Generic list helpers -/

theorem getD_set_self {α : Type} (l : List α) (i : Nat) (v d : α) (h : i < l.length) :
    (l.set i v).getD i d = v := by
  induction l generalizing i with
  | nil => simp at h
  | cons x xs ih =>
    cases i with
    | zero => rfl
    | succ n =>
      simp only [List.set_cons_succ, List.getD_cons_succ]
      exact ih n (by simpa using h)

theorem getD_set_ne {α : Type} (l : List α) (i j : Nat) (v d : α) (h : i ≠ j) :
    (l.set i v).getD j d = l.getD j d := by
  induction l generalizing i j with
  | nil => rfl
  | cons x xs ih =>
    cases i with
    | zero =>
      cases j with
      | zero => exact absurd rfl h
      | succ m => rfl
    | succ n =>
      cases j with
      | zero => rfl
      | succ m =>
        simp only [List.set_cons_succ, List.getD_cons_succ]
        exact ih n m (by omega)

theorem getD_mem {α : Type} (l : List α) (i : Nat) (d : α) (h : i < l.length) :
    l.getD i d ∈ l := by
  rw [List.getD_eq_getElem l d h]
  exact List.getElem_mem h

theorem getD_replicate {α : Type} (n k : Nat) (a : α) :
    (List.replicate n a).getD k a = a := by
  induction n generalizing k with
  | zero => rfl
  | succ m ih =>
    cases k with
    | zero => rfl
    | succ j =>
      simp only [List.replicate, List.getD_cons_succ]
      exact ih j

/-! ## The serializer matches its specification (claim C7) -/

theorem serTokens_spec (nodes : List SNode) (nd : SNode) :
    ∀ (ds : List (Fin 4)) (line : Str),
      serTokens nodes nd line ds =
        line ++ (ds.filter (goodDir nodes nd)).foldr
          (fun d acc => specToken nodes nd d ++ acc) [] := by
  intro ds
  induction ds with
  | nil => intro line; simp [serTokens]
  | cons d ds ih =>
    intro line
    by_cases h1 : nd.roads d = -1
    · simp [serTokens, h1, goodDir, ih, -List.getD_eq_getElem?_getD]
    · by_cases h2 : (nodes.getD (nd.roads d).toNat default).dead = true
      · simp [serTokens, h1, h2, goodDir, ih, -List.getD_eq_getElem?_getD]
      · simp [serTokens, h1, h2, goodDir, ih, specToken, List.append_assoc,
          -List.getD_eq_getElem?_getD]

theorem serLine_spec (nodes : List SNode) (nd : SNode) :
    serLine nodes nd = serLineSpec nodes nd := by
  simp [serLine, serLineSpec, serTokens_spec]

theorem serializeRun_spec (nodes : List SNode) :
    ∀ l : List SNode,
      serializeRun nodes l = (l.filter (fun nd => !nd.dead)).map (serLine nodes) := by
  intro l
  induction l with
  | nil => rfl
  | cons nd rest ih =>
    by_cases h : nd.dead = true
    · simp [serializeRun, h, ih]
    · simp [serializeRun, h, ih, List.filter_cons]

/-- C7: for every final City Table, the serialized result contains exactly one
line per non-destroyed city, in city-index (insertion) order, each line being
the city name followed by a ` DIR=NAME` token for each of its four directions
whose target city exists and is non-destroyed; roads to destroyed cities or to
nothing are omitted, and destroyed cities are omitted entirely, including as
neighbors. -/
theorem c7_serializer_matches_spec (nodes : List SNode) :
    serialize nodes = serializeSpec nodes := by
  rw [serialize, serializeRun_spec, serializeSpec]
  exact List.map_congr_left (fun nd _ => serLine_spec nodes nd)

/-! ## Loader well-formedness -/

theorem lookupName_mem (m : List (Str × Nat)) (s : Str) (v : Nat)
    (h : lookupName m s = some v) : (s, v) ∈ m := by
  induction m with
  | nil => simp [lookupName] at h
  | cons p r ih =>
    rcases p with ⟨k, w⟩
    rw [lookupName] at h
    by_cases hk : k = s
    · rw [if_pos hk] at h
      cases h
      subst hk
      exact List.mem_cons_self _ _
    · rw [if_neg hk] at h
      exact List.mem_cons_of_mem _ (ih h)

theorem parseLine_wf {st st' : ParseSt} {line : Str} (hwf : ParseWF st)
    (h : parseLine st line = .ok st') : ParseWF st' := by
  rw [parseLine] at h
  split at h
  · cases h; exact hwf
  · split at h
    · exact Except.noConfusion h
    · split at h
      · exact Except.noConfusion h
      · cases h
        obtain ⟨hn, hm⟩ := hwf
        constructor
        · intro k hk
          simp only [List.length_append, List.length_cons, List.length_nil] at hk ⊢
          by_cases hlt : k < st.nodes.length
          · rw [List.getD_append _ _ _ _ hlt]
            obtain ⟨h1, h2⟩ := hn k hlt
            exact ⟨h1, by omega⟩
          · have hk' : k = st.nodes.length := by omega
            subst hk'
            rw [List.getD_append_right _ _ _ _ (le_refl _), Nat.sub_self]
            simp only [List.getD_cons_zero]
            exact ⟨trivial, Nat.lt_succ_self _⟩
        · intro p hp
          simp only [List.length_append, List.length_cons, List.length_nil]
          rcases List.mem_cons.mp hp with hp1 | hp2
          · subst hp1; simp
          · have := hm p hp2; omega

theorem parseLines_wf {line : List Str} :
    ∀ {st st' : ParseSt}, ParseWF st → parseLines st line = .ok st' → ParseWF st' := by
  induction line with
  | nil =>
    intro st st' hwf h
    rw [parseLines] at h
    cases h
    exact hwf
  | cons l ls ih =>
    intro st st' hwf h
    rw [parseLines] at h
    split at h
    · exact Except.noConfusion h
    · rename_i st1 h1
      exact ih (parseLine_wf hwf h1) h

theorem RoadsValid_set {nodes : List SNode} {j : Nat} {nd : SNode}
    (hv : RoadsValid nodes)
    (hr : ∀ d : Fin 4, nd.roads d = -1 ∨ ∃ m : Nat, nd.roads d = (m : Int) ∧ m < nodes.length) :
    RoadsValid (nodes.set j nd) := by
  intro k d hk
  rw [List.length_set] at hk
  by_cases hkj : k = j
  · subst hkj
    rw [getD_set_self _ _ _ _ hk]
    rcases hr d with h | ⟨m, hm, hlt⟩
    · exact Or.inl h
    · exact Or.inr ⟨m, hm, by rwa [List.length_set]⟩
  · rw [getD_set_ne _ _ _ _ _ (fun hh => hkj hh.symm)]
    rcases hv k d hk with h | ⟨m, hm, hlt⟩
    · exact Or.inl h
    · exact Or.inr ⟨m, hm, by rwa [List.length_set]⟩

theorem getD_index_set (nodes : List SNode) (j : Nat) (nd : SNode)
    (hidx : nd.index = (nodes.getD j default).index) (k : Nat) :
    ((nodes.set j nd).getD k default).index = (nodes.getD k default).index := by
  by_cases hkj : k = j
  · subst hkj
    by_cases hk : k < nodes.length
    · rw [getD_set_self _ _ _ _ hk]
      exact hidx
    · rw [List.getD_eq_default _ _ (by rw [List.length_set]; omega),
        List.getD_eq_default _ _ (by omega)]
  · rw [getD_set_ne _ _ _ _ _ (fun hh => hkj hh.symm)]

theorem index_lt_set {nodes nodes1 : List SNode} {i : Nat} {nd : SNode}
    (hlen : nodes1.length = nodes.length)
    (hidx0 : ∀ k, k < nodes.length → (nodes.getD k default).index < nodes.length)
    (hpres : ∀ k, (nodes1.getD k default).index = (nodes.getD k default).index)
    (hnd : nd.index = (nodes1.getD i default).index) :
    ∀ k, k < (nodes1.set i nd).length →
      ((nodes1.set i nd).getD k default).index < (nodes1.set i nd).length := by
  intro k hk
  rw [List.length_set] at hk
  rw [List.length_set, getD_index_set nodes1 i nd hnd k, hpres k, hlen]
  exact hidx0 k (by omega)

theorem resolveStep_wf {mp : List (Str × Nat)} {nodes ns : List SNode} {i : Nat} {d : Fin 4}
    (hwf : ResolveWF mp nodes) (h : resolveStep mp nodes i d = .ok ns) :
    ResolveWF mp ns ∧ ns.length = nodes.length := by
  obtain ⟨hmap, hidx, hroads⟩ := hwf
  simp only [resolveStep] at h
  split at h
  · cases h
    exact ⟨⟨hmap, hidx, hroads⟩, rfl⟩
  · rename_i hne
    split at h
    · exact Except.noConfusion h
    · rename_i idx hlk
      split at h
      · cases h
        have hi : i < nodes.length := by
          by_contra hge
          apply hne
          rw [List.getD_eq_default _ _ (by omega)]
          rfl
        have hidxlt : idx < nodes.length := hmap _ (lookupName_mem _ _ _ hlk)
        have hnodeidx : (nodes.getD i default).index < nodes.length := hidx i hi
        have hA : ∀ d' : Fin 4,
            (Function.update (nodes.getD i default).roads d ((idx : Int))) d' = -1 ∨
              ∃ m : Nat, (Function.update (nodes.getD i default).roads d ((idx : Int))) d' =
                (m : Int) ∧ m < nodes.length := by
          intro d'
          by_cases hd : d' = d
          · subst hd
            rw [Function.update_same]
            exact Or.inr ⟨idx, rfl, hidxlt⟩
          · rw [Function.update_noteq hd]
            exact hroads i d' hi
        have hv1 : RoadsValid (nodes.set i
            { nodes.getD i default with
              roads := Function.update (nodes.getD i default).roads d ((idx : Int)) }) :=
          RoadsValid_set hroads hA
        have hlen1 : (nodes.set i
            { nodes.getD i default with
              roads := Function.update (nodes.getD i default).roads d ((idx : Int)) }).length =
            nodes.length := List.length_set _ _ _
        refine ⟨⟨?_, ?_, ?_⟩, ?_⟩
        · intro p hp
          rw [List.length_set, hlen1]
          exact hmap p hp
        · refine index_lt_set hlen1 hidx (fun k => getD_index_set _ _ _ (by rfl) k) (by rfl)
        · refine RoadsValid_set hv1 ?_
          intro d'
          dsimp only
          by_cases hd : d' = oppositeDir d
          · subst hd
            rw [Function.update_same]
            exact Or.inr ⟨_, rfl, by rw [List.length_set]; exact hnodeidx⟩
          · rw [Function.update_noteq hd]
            exact hv1 _ d' (by rw [List.length_set]; exact hidxlt)
        · rw [List.length_set, hlen1]
      · exact Except.noConfusion h

theorem resolveDirs_wf {mp : List (Str × Nat)} :
    ∀ (ds : List (Fin 4)) {nodes ns : List SNode} {i : Nat},
      ResolveWF mp nodes → resolveDirs mp nodes i ds = .ok ns →
      ResolveWF mp ns ∧ ns.length = nodes.length := by
  intro ds
  induction ds with
  | nil =>
    intro nodes ns i hwf h
    rw [resolveDirs] at h
    cases h
    exact ⟨hwf, rfl⟩
  | cons d0 ds ih =>
    intro nodes ns i hwf h
    rw [resolveDirs] at h
    split at h
    · exact Except.noConfusion h
    · rename_i ns1 h1
      obtain ⟨hwf1, hlen1⟩ := resolveStep_wf hwf h1
      obtain ⟨hwf2, hlen2⟩ := ih hwf1 h
      exact ⟨hwf2, by omega⟩

theorem resolveNodes_wf {mp : List (Str × Nat)} :
    ∀ (is : List Nat) {nodes ns : List SNode},
      ResolveWF mp nodes → resolveNodes mp nodes is = .ok ns →
      ResolveWF mp ns ∧ ns.length = nodes.length := by
  intro is
  induction is with
  | nil =>
    intro nodes ns hwf h
    rw [resolveNodes] at h
    cases h
    exact ⟨hwf, rfl⟩
  | cons i0 is ih =>
    intro nodes ns hwf h
    rw [resolveNodes] at h
    split at h
    · exact Except.noConfusion h
    · rename_i ns1 h1
      obtain ⟨hwf1, hlen1⟩ := resolveDirs_wf _ hwf h1
      obtain ⟨hwf2, hlen2⟩ := ih hwf1 h
      exact ⟨hwf2, by omega⟩

/-- Every successfully loaded city table has only valid road indices. -/
theorem load_roadsValid {lines : List Str} {nodes : List SNode} {mp : List (Str × Nat)}
    (h : load lines = .ok (nodes, mp)) : RoadsValid nodes := by
  rw [load] at h
  split at h
  · exact Except.noConfusion h
  · rename_i st hst
    split at h
    · exact Except.noConfusion h
    · rename_i ns hres
      cases h
      have hp : ParseWF st :=
        parseLines_wf (by exact ⟨fun k hk => by simp at hk, fun p hp => by simp at hp⟩) hst
      have hr : ResolveWF st.nodeMap st.nodes := by
        obtain ⟨h1, h2⟩ := hp
        refine ⟨h2, fun k hk => (h1 k hk).2, fun k d hk => ?_⟩
        rw [(h1 k hk).1]
        exact Or.inl rfl
      exact (resolveNodes_wf _ hr hres).1.2.2

/-! ## The simulation-state invariant -/

theorem getD_set_value {α : Type} (l : List α) (j : Nat) (v : α) :
    (l.set j v).getD j v = v := by
  by_cases h : j < l.length
  · exact getD_set_self _ _ _ _ h
  · rw [List.getD_eq_default]
    rw [List.length_set]
    omega

theorem probeSpawn_valid {nodes : List SNode} :
    ∀ {fuel tryIdx c : Nat}, tryIdx < nodes.length →
      probeSpawn nodes tryIdx fuel = some c →
      c < nodes.length ∧ (nodes.getD c default).dead = false := by
  intro fuel
  induction fuel with
  | zero => intro tryIdx c _ h; exact Option.noConfusion h
  | succ fl ih =>
    intro tryIdx c hlt h
    rw [probeSpawn] at h
    split at h
    · rename_i hdead
      cases h
      exact ⟨hlt, hdead⟩
    · refine ih ?_ h
      split
      · omega
      · omega

theorem probeDir_valid {nodes : List SNode} {anode : SNode} :
    ∀ {fuel : Nat} {t dir : Fin 4} {destI : Int},
      probeDir nodes anode t fuel = some (dir, destI) →
      destI = anode.roads dir ∧ destI ≠ -1 ∧
        (nodes.getD destI.toNat default).dead = false := by
  intro fuel
  induction fuel with
  | zero => intro t dir destI h; exact Option.noConfusion h
  | succ fl ih =>
    intro t dir destI h
    rw [probeDir] at h
    split at h
    · rename_i hgood
      cases h
      exact ⟨rfl, hgood.1, hgood.2⟩
    · exact ih h

theorem spawnStep_inv {g : Nat → Nat} {st st' : SimSt} {i : Nat}
    (hinv : SimInv st) (h : spawnStep g st i = .next st') : SimInv st' := by
  obtain ⟨hroads, halien⟩ := hinv
  simp only [spawnStep] at h
  split at h
  · exact SpawnRes.noConfusion h
  · rename_i hlen0
    split at h
    · exact SpawnRes.noConfusion h
    · rename_i chosen hprobe
      have hlen : 0 < st.nodes.length := Nat.pos_of_ne_zero hlen0
      obtain ⟨hchlt, hchdead⟩ := probeSpawn_valid (Nat.mod_lt _ hlen) hprobe
      split at h
      · -- no collision: place alien i at `chosen` and record it in `alienid`
        rename_i hex
        cases h
        constructor
        · refine RoadsValid_set hroads ?_
          intro d'
          rw [setAlienid_roads]
          exact hroads chosen d' hchlt
        · intro k
          by_cases hki : k = i
          · subst hki
            by_cases hkl : k < st.aliens.length
            · rw [getD_set_self _ _ _ _ hkl]
              refine Or.inr ⟨chosen, rfl, by rw [List.length_set]; exact hchlt, ?_⟩
              intro _
              rw [getD_set_self _ _ _ _ hchlt, setAlienid_alienid]
            · rw [List.getD_eq_default _ _ (by rw [List.length_set]; omega)]
              exact Or.inl rfl
          · rw [getD_set_ne _ _ _ _ _ (fun hh => hki hh.symm)]
            rcases halien k with h1 | ⟨c, hc, hclt, himp⟩
            · exact Or.inl h1
            · refine Or.inr ⟨c, hc, by rw [List.length_set]; exact hclt, ?_⟩
              by_cases hcch : c = chosen
              · subst hcch
                have hkk : (st.nodes.getD c default).alienid = (k : Int) := himp hchdead
                rw [hkk] at hex
                intro _
                exfalso
                omega
              · rw [getD_set_ne _ _ _ _ _ (fun hh => hcch hh.symm)]
                exact himp
      · -- collision: destroy `chosen` and remove both aliens
        rename_i hex
        cases h
        constructor
        · refine RoadsValid_set hroads ?_
          intro d'
          rw [setDead_roads]
          exact hroads chosen d' hchlt
        · intro k
          by_cases hkex : k = ((st.nodes.getD chosen default).alienid).toNat
          · subst hkex
            rw [getD_set_value]
            exact Or.inl rfl
          · rw [getD_set_ne _ _ _ _ _ (fun hh => hkex hh.symm)]
            by_cases hki : k = i
            · subst hki
              rw [getD_set_value]
              exact Or.inl rfl
            · rw [getD_set_ne _ _ _ _ _ (fun hh => hki hh.symm),
                getD_set_ne _ _ _ _ _ (fun hh => hki hh.symm)]
              rcases halien k with h1 | ⟨c, hc, hclt, himp⟩
              · exact Or.inl h1
              · refine Or.inr ⟨c, hc, by rw [List.length_set]; exact hclt, ?_⟩
                by_cases hcch : c = chosen
                · subst hcch
                  rw [getD_set_self _ _ _ _ hchlt]
                  intro hfalse
                  exact absurd hfalse (by simp)
                · rw [getD_set_ne _ _ _ _ _ (fun hh => hcch hh.symm)]
                  exact himp

theorem getD_set_cases {α : Type} (l : List α) (a k : Nat) (v d : α) :
    (l.set a v).getD k d = v ∨ (l.set a v).getD k d = l.getD k d := by
  by_cases hka : k = a
  · subst hka
    by_cases hk : k < l.length
    · exact Or.inl (getD_set_self _ _ _ _ hk)
    · rw [List.getD_eq_default _ _ (by rw [List.length_set]; omega),
        List.getD_eq_default _ _ (by omega)]
      exact Or.inr rfl
  · exact Or.inr (getD_set_ne _ _ _ _ _ (fun hh => hka hh.symm))

theorem moveAlien_inv {g : Nat → Nat} {st st' : SimSt} {i : Nat}
    (hinv : SimInv st) (h : moveAlien g st i = .next st') : SimInv st' := by
  obtain ⟨hroads, halien⟩ := hinv
  simp only [moveAlien] at h
  split at h
  · cases h
    exact ⟨hroads, halien⟩
  · rename_i hal
    rcases halien i with h1 | ⟨src, hsrc, hsrclt, hsrcimp⟩
    · exact absurd h1 hal
    rw [hsrc, Int.toNat_natCast] at h
    split at h
    · cases h
      exact ⟨hroads, halien⟩
    · rename_i pr dir destI hprobe
      split at h
      · exact MoveRes.noConfusion h
      · rename_i hrecheck
        obtain ⟨hdr, hdne, hddead⟩ := probeDir_valid hprobe
        rcases hroads src dir hsrclt with hnone | ⟨dest, hdest, hdestlt⟩
        · rw [hdr, hnone] at hdne
          exact absurd rfl hdne
        · have hdI : destI = (dest : Int) := by rw [hdr, hdest]
          subst hdI
          rw [Int.toNat_natCast] at h hddead
          split at h
          · rename_i hex
            cases h
            refine ⟨?_, ?_⟩
            · have hv1 : RoadsValid
                  (st.nodes.set src (setAlienid (st.nodes.getD src default) (-1))) := by
                refine RoadsValid_set hroads ?_
                intro d'
                rw [setAlienid_roads]
                exact hroads src d' hsrclt
              refine RoadsValid_set hv1 ?_
              intro d'
              rw [setAlienid_roads]
              exact hv1 dest d' (by rw [List.length_set]; exact hdestlt)
            · intro k
              by_cases hki : k = i
              · subst hki
                have hil : k < st.aliens.length := by
                  by_contra hge
                  rw [List.getD_eq_default _ _ (by omega)] at hsrc
                  exact absurd hsrc (by omega)
                rw [getD_set_self _ _ _ _ hil]
                refine Or.inr ⟨dest, rfl, ?_, ?_⟩
                · rw [List.length_set, List.length_set]
                  exact hdestlt
                · intro _
                  rw [getD_set_self _ _ _ _ (by rw [List.length_set]; exact hdestlt),
                    setAlienid_alienid]
              · rw [getD_set_ne _ _ _ _ _ (fun hh => hki hh.symm)]
                rcases halien k with h1 | ⟨c, hc, hclt, himp⟩
                · exact Or.inl h1
                · refine Or.inr ⟨c, hc,
                    by rw [List.length_set, List.length_set]; exact hclt, ?_⟩
                  by_cases hcd : c = dest
                  · subst hcd
                    exfalso
                    have e1 := himp hddead
                    by_cases hds : c = src
                    · have e2 := hsrcimp (hds ▸ hddead)
                      rw [hds] at e1
                      rw [e1] at e2
                      omega
                    · rw [getD_set_ne _ _ _ _ _ (fun hh => hds hh.symm)] at hex
                      rw [e1] at hex
                      omega
                  · rw [getD_set_ne _ _ _ _ _ (fun hh => hcd hh.symm)]
                    by_cases hcs : c = src
                    · subst hcs
                      rw [getD_set_self _ _ _ _ hsrclt, setAlienid_dead, setAlienid_alienid]
                      intro hx
                      have e1 := himp hx
                      have e2 := hsrcimp hx
                      rw [e1] at e2
                      exfalso
                      omega
                    · rw [getD_set_ne _ _ _ _ _ (fun hh => hcs hh.symm)]
                      exact himp
          · rename_i hex
            cases h
            refine ⟨?_, ?_⟩
            · have hv1 : RoadsValid
                  (st.nodes.set src (setAlienid (st.nodes.getD src default) (-1))) := by
                refine RoadsValid_set hroads ?_
                intro d'
                rw [setAlienid_roads]
                exact hroads src d' hsrclt
              refine RoadsValid_set hv1 ?_
              intro d'
              rw [setDead_roads]
              exact hv1 dest d' (by rw [List.length_set]; exact hdestlt)
            · intro k
              by_cases hki : k = i
              · subst hki
                rcases getD_set_cases ((st.aliens.set k ((dest : Int))).set k (-1))
                    (((st.nodes.set src (setAlienid (st.nodes.getD src default)
                      (-1))).getD dest default).alienid.toNat) k (-1) (-1) with h3 | h3
                · rw [h3]
                  exact Or.inl rfl
                · rw [h3, getD_set_value]
                  exact Or.inl rfl
              · rcases getD_set_cases ((st.aliens.set i ((dest : Int))).set i (-1))
                    (((st.nodes.set src (setAlienid (st.nodes.getD src default)
                      (-1))).getD dest default).alienid.toNat) k (-1) (-1) with h3 | h3
                · rw [h3]
                  exact Or.inl rfl
                · rw [h3, getD_set_ne _ _ _ _ _ (fun hh => hki hh.symm),
                    getD_set_ne _ _ _ _ _ (fun hh => hki hh.symm)]
                  rcases halien k with h1 | ⟨c, hc, hclt, himp⟩
                  · exact Or.inl h1
                  · refine Or.inr ⟨c, hc,
                      by rw [List.length_set, List.length_set]; exact hclt, ?_⟩
                    by_cases hcd : c = dest
                    · subst hcd
                      rw [getD_set_self _ _ _ _ (by rw [List.length_set]; exact hdestlt),
                        setDead_dead]
                      intro hx
                      exact absurd hx (by simp)
                    · rw [getD_set_ne _ _ _ _ _ (fun hh => hcd hh.symm)]
                      by_cases hcs : c = src
                      · subst hcs
                        rw [getD_set_self _ _ _ _ hsrclt, setAlienid_dead, setAlienid_alienid]
                        intro hx
                        have e1 := himp hx
                        have e2 := hsrcimp hx
                        rw [e1] at e2
                        exfalso
                        omega
                      · rw [getD_set_ne _ _ _ _ _ (fun hh => hcs hh.symm)]
                        exact himp

/-- The initial simulation state built from a loaded table satisfies the
invariant (all aliens start unplaced). -/
theorem initSt_inv {lines : List Str} {nodes : List SNode} {mp : List (Str × Nat)}
    (numaliens : Nat) (h : load lines = .ok (nodes, mp)) :
    SimInv (initSt nodes numaliens) := by
  refine ⟨load_roadsValid h, ?_⟩
  intro k
  exact Or.inl (getD_replicate _ _ _)

/-- The simulation invariant holds at every observable state. -/
theorem reach_inv {numaliens : Nat} {st : SimSt} (h : Reach numaliens st) : SimInv st := by
  induction h with
  | init lines nodes mp hload => exact initSt_inv numaliens hload
  | spawn g st st' j hr hs ih => exact spawnStep_inv ih hs
  | move g st st' j hr hm ih => exact moveAlien_inv ih hm

/-- C5: for every simulation run, at every observable point after each spawn
or move operation is resolved, no two distinct alien ids that are still placed
have the same current city index when that city is non-destroyed. -/
theorem c5_no_duplicate_occupancy {numaliens : Nat} {st : SimSt}
    (h : Reach numaliens st) : NoDupOccupancy st := by
  have hinv := reach_inv h
  intro i j c hij hi hj
  by_contra hdead
  have hdf : (st.nodes.getD c default).dead = false := by
    cases hb : (st.nodes.getD c default).dead
    · rfl
    · exact absurd hb hdead
  rcases hinv.2 i with h1 | ⟨c1, hc1, _, himp1⟩
  · rw [hi] at h1
    exact absurd h1 (by omega)
  · rcases hinv.2 j with h2 | ⟨c2, hc2, _, himp2⟩
    · rw [hj] at h2
      exact absurd h2 (by omega)
    · rw [hi] at hc1
      rw [hj] at hc2
      have e1 : c1 = c := by omega
      have e2 : c2 = c := by omega
      subst e1
      subst e2
      have f1 := himp1 hdf
      have f2 := himp2 hdf
      rw [f1] at f2
      exact hij (by omega)

/-- Witness for C5 at a concrete loaded map. -/
theorem c5_no_duplicate_occupancy_witness :
    Reach 2 (initSt (loadNodes ["A".toList]) 2) ∧
      NoDupOccupancy (initSt (loadNodes ["A".toList]) 2) := by
  have hr : Reach 2 (initSt (loadNodes ["A".toList]) 2) :=
    Reach.init ["A".toList] (loadNodes ["A".toList]) (loadMap ["A".toList]) rfl
  exact ⟨hr, c5_no_duplicate_occupancy hr⟩

/-! ## Round cap and early stop (claim C6) -/

theorem moveLoop_rounds_le {g : Nat → Nat} {numaliens : Nat} :
    ∀ (fuel : Nat) (st : SimSt) {res : SimSt} {k : Nat},
      moveLoop g numaliens fuel st = some (res, k) → k ≤ fuel := by
  intro fuel
  induction fuel with
  | zero =>
    intro st res k h
    rw [moveLoop] at h
    cases h
    exact Nat.le_refl _
  | succ fl ih =>
    intro st res k h
    rw [moveLoop] at h
    split at h
    · cases h
      omega
    · split at h
      · exact Option.noConfusion h
      · rename_i st1 h1
        split at h
        · exact Option.noConfusion h
        · rename_i pr st2 k2 h2
          cases h
          have := ih _ h2
          omega

theorem moveLoop_stops_when_none_alive {g : Nat → Nat} {numaliens : Nat}
    (fuel : Nat) (st : SimSt) (hlive : st.liveAlienCounter ≤ 0) :
    moveLoop g numaliens fuel st = some (st, 0) := by
  cases fuel with
  | zero => rw [moveLoop]
  | succ fl => rw [moveLoop, if_pos hlive]

/-- C6: for every simulation run, the movement engine executes at most 10,000
rounds, and once the number of live placed aliens reaches zero the round loop
stops early without running further rounds. -/
theorem c6_round_cap (g : Nat → Nat) (numaliens : Nat) (st : SimSt) :
    (∀ res k, movePhase g numaliens st = some (res, k) → k ≤ 10000) ∧
    (st.liveAlienCounter ≤ 0 → movePhase g numaliens st = some (st, 0)) := by
  constructor
  · intro res k h
    exact moveLoop_rounds_le _ _ h
  · intro hlive
    exact moveLoop_stops_when_none_alive 10000 st hlive

/-- Witness for C6 at a concrete state with no live aliens. -/
theorem c6_round_cap_witness :
    (initSt [] 0).liveAlienCounter ≤ 0 ∧
      movePhase (fun _ => 0) 0 (initSt [] 0) = some (initSt [] 0, 0) :=
  ⟨by decide, (c6_round_cap (fun _ => 0) 0 (initSt [] 0)).2 (by decide)⟩

/-! ## World exhaustion during spawning (claim C8) -/

theorem probeSpawn_none_of_all_dead {nodes : List SNode}
    (hdead : ∀ nd ∈ nodes, nd.dead = true) :
    ∀ (fuel tryIdx : Nat), tryIdx < nodes.length → probeSpawn nodes tryIdx fuel = none := by
  intro fuel
  induction fuel with
  | zero =>
    intro t ht
    rw [probeSpawn]
  | succ fl ih =>
    intro t ht
    rw [probeSpawn]
    have hd : (nodes.getD t default).dead = true := hdead _ (getD_mem _ _ _ ht)
    rw [if_neg (by rw [hd]; simp)]
    refine ih _ ?_
    split
    · omega
    · omega

/-- C8: whenever an alien must be placed but every city is destroyed (so the
wrapping probe over all city indices finds none), spawning halts immediately:
the spawn loop returns the world-exhausted outcome with the roster unchanged
(that alien and all later ones are never placed), and the overall simulation
ends with the `exhausted` outcome, which writes no result file. -/
theorem c8_world_exhausted :
    (∀ (g : Nat → Nat) (st : SimSt) (i : Nat) (rest : List Nat),
      0 < st.nodes.length → (∀ nd ∈ st.nodes, nd.dead = true) →
      spawnLoop g st (i :: rest) = .exhausted st.aliens) ∧
    (∀ (lines : List Str) (numaliens : Nat) (g : Nat → Nat) (nodes : List SNode)
      (mp : List (Str × Nat)) (a : List Int),
      load lines = .ok (nodes, mp) →
      spawnLoop g (initSt nodes numaliens) (List.range numaliens) = .exhausted a →
      fullSim lines numaliens g = .exhausted) := by
  constructor
  · intro g st i rest hpos hdead
    have hstep : spawnStep g st i = .exhausted st.aliens := by
      simp only [spawnStep, if_neg (show ¬st.nodes.length = 0 by omega),
        probeSpawn_none_of_all_dead hdead _ _ (Nat.mod_lt _ hpos)]
    simp only [spawnLoop, hstep]
  · intro lines numaliens g nodes mp a hload hspawn
    simp only [fullSim, hload, hspawn]

/-- Witness for C8: a one-city world whose city is already destroyed, and a
three-alien run on the one-city map where the third alien finds no city. -/
theorem c8_world_exhausted_witness :
    (0 < (SimSt.mk [⟨0, "A".toList, fun _ => -1, fun _ => [], true, 0⟩] [-1] (-1) 2).nodes.length) ∧
    (∀ nd ∈ (SimSt.mk [⟨0, "A".toList, fun _ => -1, fun _ => [], true, 0⟩] [-1] (-1) 2).nodes,
      nd.dead = true) ∧
    spawnLoop (fun _ => 0)
      (SimSt.mk [⟨0, "A".toList, fun _ => -1, fun _ => [], true, 0⟩] [-1] (-1) 2) [0] =
      .exhausted [-1] ∧
    fullSim ["A".toList] 3 (fun _ => 0) = .exhausted := by
  refine ⟨by decide, by decide, ?_, ?_⟩
  · exact c8_world_exhausted.1 (fun _ => 0) _ 0 [] (by decide) (by decide)
  · exact c8_world_exhausted.2 ["A".toList] 3 (fun _ => 0)
      (loadNodes ["A".toList]) (loadMap ["A".toList]) [-1, -1, -1] rfl rfl

/-! ## Loader behaviour on concrete files (claims C1 and C2) -/

/-- C1: the code rejects even a correctly reciprocal road declaration.  The
file `A east=B` / `B west=A` — which the claim (and the loader's own comment)
says must load successfully — fails with `InconsistentRoad`, because the
reciprocity check compares the neighbor's opposite-direction declaration
against `node.sroads[d]` (the neighbor's own name) instead of against the
declaring city's name. -/
theorem c1_reciprocal_declaration_rejected :
    loadErr ["A east=B".toList, "B west=A".toList] = some .InconsistentRoad := by decide

/-- C2: blank lines are not ignored by the loader.  A blank line adds a city
named `""` to the table (changing the City Table), and a second blank line
fails with `DuplicateCity` — contradicting the claim (and the comment "If the
line isn't empty" in the source, whose guard `len(items) >= 1` is always
true). -/
theorem c2_blank_line_creates_city :
    (loadNodes ["A".toList, []]).length = 2 ∧
    ((loadNodes ["A".toList, []]).getD 1 default).cityName = [] ∧
    loadErr ["A".toList, [], []] = some .DuplicateCity := by
  refine ⟨?_, ?_, ?_⟩ <;> decide

/-! ## Collision destruction state (claim C3) -/

/-- C3 (amended): in either phase, when an alien lands on a city already
occupied by another alien, both aliens are removed from the roster and the
city's destroyed flag is set, but the city's occupancy slot (`alienid`) is
not cleared: it still records the previously recorded occupant. -/
theorem c3_collision_destroys_but_keeps_occupancy :
    (∀ (g : Nat → Nat) (st : SimSt) (i chosen : Nat) (existing : Int),
      probeSpawn st.nodes (g st.rndCtr % st.nodes.length) st.nodes.length = some chosen →
      (st.nodes.getD chosen default).alienid = existing →
      existing ≠ -1 →
      ∃ st', spawnStep g st i = .next st' ∧
        (st'.nodes.getD chosen default).dead = true ∧
        st'.aliens.getD i (-1) = -1 ∧
        st'.aliens.getD existing.toNat (-1) = -1 ∧
        (st'.nodes.getD chosen default).alienid = existing) ∧
    (∀ (g : Nat → Nat) (st : SimSt) (i src dest : Nat) (dir : Fin 4) (existing : Int),
      st.aliens.getD i (-1) = (src : Int) →
      probeDir st.nodes (st.nodes.getD src default)
        ⟨g st.rndCtr % 4, Nat.mod_lt _ (by omega)⟩ 4 = some (dir, (dest : Int)) →
      (st.nodes.getD dest default).dead = false →
      dest ≠ src →
      (st.nodes.getD dest default).alienid = existing →
      existing ≠ -1 →
      ∃ st', moveAlien g st i = .next st' ∧
        (st'.nodes.getD dest default).dead = true ∧
        st'.aliens.getD i (-1) = -1 ∧
        st'.aliens.getD existing.toNat (-1) = -1 ∧
        (st'.nodes.getD dest default).alienid = existing) := by
  constructor
  · intro g st i chosen existing hprobe hex hne
    have hlen : ¬st.nodes.length = 0 := by
      intro hz
      rw [hz] at hprobe
      simp only [probeSpawn] at hprobe
      exact Option.noConfusion hprobe
    have hpos : 0 < st.nodes.length := Nat.pos_of_ne_zero hlen
    obtain ⟨hclt, _⟩ := probeSpawn_valid (Nat.mod_lt _ hpos) hprobe
    simp only [spawnStep, if_neg hlen, hprobe, hex, if_neg hne]
    refine ⟨_, rfl, ?_, ?_, ?_, ?_⟩
    · rw [getD_set_self _ _ _ _ hclt, setDead_dead]
    · dsimp only
      rcases getD_set_cases ((st.aliens.set i ((chosen : Int))).set i (-1))
          existing.toNat i (-1) (-1) with h3 | h3
      · rw [h3]
      · rw [h3, getD_set_value]
    · dsimp only
      rw [getD_set_value]
    · rw [getD_set_self _ _ _ _ hclt, setDead_alienid]
      exact hex
  · intro g st i src dest dir existing hsrc hprobe hdd hds hex hne
    have hcond1 : ¬((src : Int) = -1) := by omega
    have hdlt : dest < st.nodes.length := by
      by_contra hge
      rw [List.getD_eq_default _ _ (by omega)] at hex
      have hdef : (default : SNode).alienid = -1 := rfl
      rw [hdef] at hex
      exact hne hex.symm
    have hcond2 : ¬((dest : Int) = -1 ∨ (st.nodes.getD dest default).dead = true) := by
      intro hor
      rcases hor with h | h
      · omega
      · rw [hdd] at h
        exact Bool.noConfusion h
    have hexeq : ((st.nodes.set src (setAlienid (st.nodes.getD src default)
        (-1))).getD dest default).alienid = existing := by
      rw [getD_set_ne _ _ _ _ _ (fun hh => hds hh.symm)]
      exact hex
    simp only [moveAlien, hsrc, if_neg hcond1, Int.toNat_natCast, hprobe,
      if_neg hcond2, hexeq, if_neg hne]
    refine ⟨_, rfl, ?_, ?_, ?_, ?_⟩
    · rw [getD_set_self _ _ _ _ (by rw [List.length_set]; exact hdlt), setDead_dead]
    · dsimp only
      rcases getD_set_cases ((st.aliens.set i ((dest : Int))).set i (-1))
          existing.toNat i (-1) (-1) with h3 | h3
      · rw [h3]
      · rw [h3, getD_set_value]
    · dsimp only
      rw [getD_set_value]
    · rw [getD_set_self _ _ _ _ (by rw [List.length_set]; exact hdlt), setDead_alienid]
      exact hexeq

/-- Counterexample to C3 as stated: spawning two aliens on the one-city map
with the all-zeros oracle destroys the city, but its occupancy slot still
records alien 0 rather than being cleared to `-1`. -/
theorem c3_occupancy_not_cleared_counterexample :
    ((spawnResSt (spawnLoop (fun _ => 0) (initSt (loadNodes ["A".toList]) 2) [0, 1])).map
      (fun st => (st.nodes.getD 0 default).alienid) = some 0) ∧
    ((spawnResSt (spawnLoop (fun _ => 0) (initSt (loadNodes ["A".toList]) 2) [0, 1])).map
      (fun st => (st.nodes.getD 0 default).dead) = some true) ∧
    ¬((spawnResSt (spawnLoop (fun _ => 0) (initSt (loadNodes ["A".toList]) 2) [0, 1])).map
      (fun st => (st.nodes.getD 0 default).alienid) = some (-1)) := by
  refine ⟨?_, ?_, ?_⟩ <;> decide

/-- Witness for the amended C3, exercising both the spawn and the move-phase
collision cases at concrete states. -/
theorem c3_collision_witness :
    (∃ st', spawnStep (fun _ => 0)
        (SimSt.mk [⟨0, "A".toList, fun _ => -1, fun _ => [], false, 0⟩] [0, -1] 1 1) 1 = .next st' ∧
        (st'.nodes.getD 0 default).dead = true ∧
        st'.aliens.getD 1 (-1) = -1 ∧
        st'.aliens.getD (0 : Int).toNat (-1) = -1 ∧
        (st'.nodes.getD 0 default).alienid = 0) ∧
    (∃ st', moveAlien (fun _ => 0)
        (SimSt.mk
          [⟨0, "A".toList, fun d => if d = EAST then 1 else -1, fun _ => [], false, 0⟩,
           ⟨1, "B".toList, fun d => if d = WEST then 0 else -1, fun _ => [], false, 1⟩]
          [0, 1] 2 2) 0 = .next st' ∧
        (st'.nodes.getD 1 default).dead = true ∧
        st'.aliens.getD 0 (-1) = -1 ∧
        st'.aliens.getD (1 : Int).toNat (-1) = -1 ∧
        (st'.nodes.getD 1 default).alienid = 1) := by
  constructor
  · exact c3_collision_destroys_but_keeps_occupancy.1 (fun _ => 0) _ 1 0 0
      (by decide) (by decide) (by decide)
  · exact c3_collision_destroys_but_keeps_occupancy.2 (fun _ => 0) _ 0 0 1 EAST 1
      (by decide) (by decide) (by decide) (by decide) (by decide) (by decide)

/-! ## One-sided road declarations (claim C4) -/

/-- C4 (amended): a two-line map file in which city A declares `east=B` and
city B declares nothing loads successfully, and the resolved table has B's
west road auto-filled with A's index 0.  (With further cities also declaring
`east=B` the auto-fill is overwritten by the last declarer; see the
counterexample.) -/
theorem c4_one_sided_autofill (a b l1 l2 t : Str)
    (h1 : splitGo ' ' l1 = [a, t])
    (ht : splitGo '=' t = ["east".toList, b])
    (h2 : splitGo ' ' l2 = [b])
    (hab : ¬(a = b))
    (hb : ¬(b = [])) :
    loadOk [l1, l2] = true ∧
    (loadNodes [l1, l2]).length = 2 ∧
    ((loadNodes [l1, l2]).getD 0 default).cityName = a ∧
    ((loadNodes [l1, l2]).getD 0 default).sroads EAST = b ∧
    ((loadNodes [l1, l2]).getD 1 default).cityName = b ∧
    ((loadNodes [l1, l2]).getD 1 default).sroads WEST = [] ∧
    ((loadNodes [l1, l2]).getD 1 default).roads WEST = 0 := by
  have hba : ¬(b = a) := fun hh => hab hh.symm
  have hde : dirOfName ['e', 'a', 's', 't'] = some EAST := by decide
  have hrange : List.range 2 = [0, 1] := by rfl
  have hload : load [l1, l2] = .ok
      ([⟨0, a, Function.update (fun _ => (-1 : Int)) EAST 1,
          Function.update (fun _ => []) EAST b, false, -1⟩,
        ⟨1, b, Function.update (fun _ => (-1 : Int)) WEST 0, fun _ => [], false, -1⟩],
       [(b, 1), (a, 0)]) := by
    simp +decide [load, parseLines, parseLine, parseItems, resolveNodes, resolveDirs,
      resolveStep, lookupName, h1, h2, ht, hde, hba, hab, hb, hrange,
      Function.update_apply, oppositeDir]
  refine ⟨?_, ?_, ?_, ?_, ?_, ?_, ?_⟩ <;>
    simp +decide [loadOk, loadNodes, hload, Function.update_apply, EAST, WEST]

/-- Counterexample to C4 as stated: in the file `A east=B` / `C east=B` / `B`,
city A declares `east=B` and B declares no west road, loading succeeds, yet
B's west road ends up pointing at C (index 1), not at A (index 0) — a later
`east=B` declaration silently overwrites the auto-filled slot. -/
theorem c4_autofill_overwritten_counterexample :
    loadOk ["A east=B".toList, "C east=B".toList, "B".toList] = true ∧
    ((loadNodes ["A east=B".toList, "C east=B".toList, "B".toList]).getD 0
      default).cityName = "A".toList ∧
    ((loadNodes ["A east=B".toList, "C east=B".toList, "B".toList]).getD 0
      default).sroads EAST = "B".toList ∧
    ((loadNodes ["A east=B".toList, "C east=B".toList, "B".toList]).getD 2
      default).cityName = "B".toList ∧
    ((loadNodes ["A east=B".toList, "C east=B".toList, "B".toList]).getD 2
      default).sroads WEST = [] ∧
    ((loadNodes ["A east=B".toList, "C east=B".toList, "B".toList]).getD 2
      default).roads WEST = 1 ∧
    ¬((loadNodes ["A east=B".toList, "C east=B".toList, "B".toList]).getD 2
      default).roads WEST = 0 := by
  refine ⟨?_, ?_, ?_, ?_, ?_, ?_, ?_⟩ <;> decide

/-- Witness for the amended C4 at the concrete file `A east=B` / `B`. -/
theorem c4_one_sided_autofill_witness :
    splitGo ' ' "A east=B".toList = ["A".toList, "east=B".toList] ∧
    splitGo '=' "east=B".toList = ["east".toList, "B".toList] ∧
    splitGo ' ' "B".toList = ["B".toList] ∧
    (loadOk ["A east=B".toList, "B".toList] = true ∧
      (loadNodes ["A east=B".toList, "B".toList]).length = 2 ∧
      ((loadNodes ["A east=B".toList, "B".toList]).getD 0 default).cityName = "A".toList ∧
      ((loadNodes ["A east=B".toList, "B".toList]).getD 0 default).sroads EAST = "B".toList ∧
      ((loadNodes ["A east=B".toList, "B".toList]).getD 1 default).cityName = "B".toList ∧
      ((loadNodes ["A east=B".toList, "B".toList]).getD 1 default).sroads WEST = [] ∧
      ((loadNodes ["A east=B".toList, "B".toList]).getD 1 default).roads WEST = 0) :=
  ⟨by decide, by decide, by decide,
    c4_one_sided_autofill ("A".toList) ("B".toList) _ _ ("east=B".toList)
      (by decide) (by decide) (by decide) (by decide) (by decide)⟩

/-! ## Empty neighbor names (claim C10) -/

/-- C10 (amended): a line `NAME DIR=` whose city name is non-empty is accepted
by the loader: the empty neighbor name is stored as "no road", skipped during
resolution, and no error of any kind is raised — the resolved city has no
roads at all.  (When the city name on the line is itself empty, the empty
neighbor name equals it and the loader raises SelfReference instead; see the
counterexample.) -/
theorem c10_empty_neighbor_accepted (a dstr l t : Str) (dir : Fin 4)
    (h1 : splitGo ' ' l = [a, t])
    (ht : splitGo '=' t = [dstr, []])
    (hd : dirOfName dstr = some dir)
    (ha : ¬(a = [])) :
    loadOk [l] = true ∧
    (loadNodes [l]).length = 1 ∧
    ((loadNodes [l]).getD 0 default).cityName = a ∧
    (∀ d : Fin 4, ((loadNodes [l]).getD 0 default).roads d = -1) := by
  have hea : ¬(([] : Str) = a) := fun hh => ha hh.symm
  have hrange : List.range 1 = [0] := by rfl
  have hload : load [l] = .ok
      ([⟨0, a, fun _ => -1, Function.update (fun _ => []) dir [], false, -1⟩], [(a, 0)]) := by
    simp +decide [load, parseLines, parseLine, parseItems, resolveNodes, resolveDirs,
      resolveStep, lookupName, h1, ht, hd, hea, hrange, Function.update_apply, oppositeDir]
  refine ⟨?_, ?_, ?_, ?_⟩ <;>
    simp +decide [loadOk, loadNodes, hload, Function.update_apply]

/-- Counterexample to C10 as stated: the line `" east="` (empty city name,
empty neighbor name) contains a `DIR=` token with an empty neighbor name, yet
the loader rejects it with SelfReference — the empty neighbor equals the
empty city name being defined. -/
theorem c10_empty_name_selfref_counterexample :
    loadErr [" east=".toList] = some .SelfReference := by decide

/-- Witness for the amended C10 at the concrete line `A east=`. -/
theorem c10_empty_neighbor_accepted_witness :
    splitGo ' ' "A east=".toList = ["A".toList, "east=".toList] ∧
    splitGo '=' "east=".toList = ["east".toList, []] ∧
    dirOfName "east".toList = some EAST ∧
    (loadOk ["A east=".toList] = true ∧
      (loadNodes ["A east=".toList]).length = 1 ∧
      ((loadNodes ["A east=".toList]).getD 0 default).cityName = "A".toList ∧
      (∀ d : Fin 4, ((loadNodes ["A east=".toList]).getD 0 default).roads d = -1)) :=
  ⟨by decide, by decide, by decide,
    c10_empty_neighbor_accepted ("A".toList) ("east".toList) _ ("east=".toList) EAST
      (by decide) (by decide) (by decide) (by decide)⟩

/-! ## Self-reference rejection (claim C9) -/

theorem parseItems_self_errors (c : Str) :
    ∀ (pre post : List Str) (tok dstr : Str) (dir : Fin 4) (sr : Fin 4 → Str),
      splitGo '=' tok = [dstr, c] →
      dirOfName dstr = some dir →
      ∃ e, parseItems c (pre ++ tok :: post) sr = .error e := by
  intro pre
  induction pre with
  | nil =>
    intro post tok dstr dir sr htok hd
    refine ⟨.SelfReference, ?_⟩
    rw [List.nil_append]
    simp only [parseItems, htok, hd]
    rw [if_pos trivial]
  | cons p ps ih =>
    intro post tok dstr dir sr htok hd
    rw [List.cons_append]
    cases hp : splitGo '=' p with
    | nil => exact ⟨.SyntaxError, by simp only [parseItems, hp]⟩
    | cons x tl =>
      cases tl with
      | nil => exact ⟨.SyntaxError, by simp only [parseItems, hp]⟩
      | cons y tl2 =>
        cases tl2 with
        | nil =>
          cases hdx : dirOfName x with
          | none => exact ⟨.UnknownDirection, by simp only [parseItems, hp, hdx]⟩
          | some d0 =>
            by_cases hyc : y = c
            · exact ⟨.SelfReference, by simp only [parseItems, hp, hdx, if_pos hyc]⟩
            · obtain ⟨e, he⟩ := ih post tok dstr dir (Function.update sr d0 y) htok hd
              exact ⟨e, by simp only [parseItems, hp, hdx, if_neg hyc]; exact he⟩
        | cons z tl3 => exact ⟨.SyntaxError, by simp only [parseItems, hp]⟩

theorem parseLine_self_errors (st : ParseSt) (l c : Str) (pre post : List Str)
    (tok dstr : Str) (dir : Fin 4)
    (h1 : splitGo ' ' l = c :: (pre ++ tok :: post))
    (htok : splitGo '=' tok = [dstr, c])
    (hd : dirOfName dstr = some dir) :
    ∃ e, parseLine st l = .error e := by
  cases hlk : lookupName st.nodeMap c with
  | some v => exact ⟨.DuplicateCity, by simp only [parseLine, h1, hlk]⟩
  | none =>
    obtain ⟨e, he⟩ := parseItems_self_errors c pre post tok dstr dir (fun _ => []) htok hd
    exact ⟨e, by simp only [parseLine, h1, hlk, he]⟩

theorem parseLines_line_errors :
    ∀ (pres : List Str) (st : ParseSt) (l : Str) (sufs : List Str),
      (∀ st' : ParseSt, ∃ e, parseLine st' l = .error e) →
      ∃ e, parseLines st (pres ++ l :: sufs) = .error e := by
  intro pres
  induction pres with
  | nil =>
    intro st l sufs hl
    obtain ⟨e, he⟩ := hl st
    exact ⟨e, by simp only [List.nil_append, parseLines, he]⟩
  | cons p ps ih =>
    intro st l sufs hl
    cases hp : parseLine st p with
    | error e => exact ⟨e, by simp only [List.cons_append, parseLines, hp]⟩
    | ok st1 =>
      obtain ⟨e, he⟩ := ih st1 l sufs hl
      exact ⟨e, by simp only [List.cons_append, parseLines, hp]; exact he⟩

theorem parseLines_append (xs ys : List Str) :
    ∀ st : ParseSt, parseLines st (xs ++ ys) =
      match parseLines st xs with
      | .error e => .error e
      | .ok st' => parseLines st' ys := by
  induction xs with
  | nil => intro st; simp only [List.nil_append, parseLines]
  | cons x xs ih =>
    intro st
    cases hx : parseLine st x with
    | error e => simp only [List.cons_append, parseLines, hx]
    | ok st1 =>
      simp only [List.cons_append, parseLines, hx]
      exact ih st1

theorem parseItems_self_reference (c : Str) :
    ∀ (pre : List Str) (post : List Str) (tok dstr : Str) (dir : Fin 4) (sr : Fin 4 → Str),
      splitGo '=' tok = [dstr, c] →
      dirOfName dstr = some dir →
      (∀ tk ∈ pre, ∃ ds nm d0, splitGo '=' tk = [ds, nm] ∧ dirOfName ds = some d0 ∧ ¬(nm = c)) →
      parseItems c (pre ++ tok :: post) sr = .error .SelfReference := by
  intro pre
  induction pre with
  | nil =>
    intro post tok dstr dir sr htok hd _
    rw [List.nil_append]
    simp only [parseItems, htok, hd]
    rw [if_pos trivial]
  | cons p ps ih =>
    intro post tok dstr dir sr htok hd hgood
    obtain ⟨ds, nm, d0, hsp, hds, hnm⟩ := hgood p (List.mem_cons_self _ _)
    rw [List.cons_append]
    simp only [parseItems, hsp, hds, if_neg hnm]
    exact ih post tok dstr dir _ htok hd (fun tk htk => hgood tk (List.mem_cons_of_mem _ htk))

/-- C9 (amended): whenever some input line defines a city `c` and carries a
well-formed token `DIR=c` naming that same city, loading fails with some
loader error; it fails with SelfReference in particular when the city name is
not a duplicate, every earlier line parses without error, and every token
before the self-referencing one on that line is itself well-formed (exactly
one `=`, known direction, non-self neighbor).  A malformed earlier token or an
earlier-line error preempts SelfReference with its own error; see the
counterexample. -/
theorem c9_self_reference :
    (∀ (pres sufs : List Str) (l c : Str) (pre post : List Str) (tok dstr : Str) (dir : Fin 4),
      splitGo ' ' l = c :: (pre ++ tok :: post) →
      splitGo '=' tok = [dstr, c] →
      dirOfName dstr = some dir →
      ∃ e, loadErr (pres ++ l :: sufs) = some e) ∧
    (∀ (pres sufs : List Str) (st : ParseSt) (l c : Str) (pre post : List Str)
      (tok dstr : Str) (dir : Fin 4),
      parseLines ⟨[], []⟩ pres = .ok st →
      lookupName st.nodeMap c = none →
      splitGo ' ' l = c :: (pre ++ tok :: post) →
      splitGo '=' tok = [dstr, c] →
      dirOfName dstr = some dir →
      (∀ tk ∈ pre, ∃ ds nm d0, splitGo '=' tk = [ds, nm] ∧ dirOfName ds = some d0 ∧ ¬(nm = c)) →
      loadErr (pres ++ l :: sufs) = some .SelfReference) := by
  constructor
  · intro pres sufs l c pre post tok dstr dir h1 htok hd
    obtain ⟨e, he⟩ := parseLines_line_errors pres ⟨[], []⟩ l sufs
      (fun st' => parseLine_self_errors st' l c pre post tok dstr dir h1 htok hd)
    exact ⟨e, by simp only [loadErr, load, he]⟩
  · intro pres sufs st l c pre post tok dstr dir hpre hlk h1 htok hd hgood
    have hline : parseLine st l = .error .SelfReference := by
      simp only [parseLine, h1, hlk,
        parseItems_self_reference c pre post tok dstr dir (fun _ => []) htok hd hgood]
    have hall : parseLines ⟨[], []⟩ (pres ++ l :: sufs) = .error .SelfReference := by
      rw [parseLines_append, hpre]
      simp only [parseLines, hline]
    simp only [loadErr, load, hall]

/-- Counterexample to C9 as stated: the single-line file `A bad east=A`
contains the self-referencing token `east=A`, but loading fails with
SyntaxError (from the malformed token `bad`), not with SelfReference. -/
theorem c9_syntax_error_preempts_counterexample :
    loadErr ["A bad east=A".toList] = some .SyntaxError ∧
    ¬loadErr ["A bad east=A".toList] = some .SelfReference := by
  refine ⟨?_, ?_⟩ <;> decide

/-- Witness for the amended C9: the file `A east=A` fails with SelfReference,
and a file whose self-referencing line is preceded by a duplicate definition
still fails (with some error). -/
theorem c9_self_reference_witness :
    splitGo ' ' "A east=A".toList = ["A".toList, "east=A".toList] ∧
    splitGo '=' "east=A".toList = ["east".toList, "A".toList] ∧
    dirOfName "east".toList = some EAST ∧
    loadErr ["A east=A".toList] = some .SelfReference ∧
    (∃ e, loadErr ["A".toList, "A east=A".toList] = some e) := by
  refine ⟨by decide, by decide, by decide, ?_, ?_⟩
  · exact c9_self_reference.2 [] [] ⟨[], []⟩ ("A east=A".toList) ("A".toList) [] []
      ("east=A".toList) ("east".toList) EAST rfl rfl (by decide) (by decide) (by decide)
      (fun tk htk => absurd htk (List.not_mem_nil _))
  · exact c9_self_reference.1 ["A".toList] [] ("A east=A".toList) ("A".toList) [] []
      ("east=A".toList) ("east".toList) EAST (by decide) (by decide) (by decide)

